import Mathlib

/-!
Shallow embedding of `src/basic_memory/mcp/lock.py` (`McpServerLock`): a
PID-file lock with takeover semantics.  The operating system is modelled by a
`World` oracle fixing, for each PID, whether it is alive, whether signalling it
raises `OSError`, and whether it survives the SIGTERM grace period; filesystem
faults are modelled by per-operation fault flags.  The lock file is an
`Option String` (file content, or `none` when the file is missing), and each
operation additionally records the trace of process-signalling events it
performs, so that claims about which signals are delivered are statable.
-/

namespace BasicMemory

/-- Python `str.strip` on a character list: drop whitespace from both ends
(models `content.strip()` in `_read_lock`). -/
def stripChars (cs : List Char) : List Char :=
  ((cs.dropWhile Char.isWhitespace).reverse.dropWhile Char.isWhitespace).reverse

/-- Decimal value of a digit-character list, most significant first. -/
def digitsVal (cs : List Char) : Nat :=
  cs.foldl (fun a c => 10 * a + (c.toNat - 48)) 0

/-- Parse a nonempty run of decimal digits; `none` otherwise. -/
def parseDigits (cs : List Char) : Option Nat :=
  if cs = [] then none
  else if cs.all Char.isDigit then some (digitsVal cs) else none

/-- Python `int(...)` applied to an already-stripped character list: an
optional sign followed by a nonempty digit run. -/
def pyIntChars (cs : List Char) : Option Int :=
  match cs with
  | [] => none
  | c :: rest =>
    if c = '-' then (parseDigits rest).map (fun n => -(n : Int))
    else if c = '+' then (parseDigits rest).map (fun n => (n : Int))
    else (parseDigits (c :: rest)).map (fun n => (n : Int))

/-- Model of Python `int(content.strip())` in `_read_lock`: strip whitespace,
then parse an optionally signed decimal integer; `none` models `ValueError`. -/
def pyInt (s : String) : Option Int :=
  pyIntChars (stripChars s.toList)

/-- Operating-system oracle: fixes the outcome of every probe, signal and
filesystem operation the lock may perform.  `alive pid` is the result of the
`os.kill(pid, 0)` probe; `termRaises pid` says `os.kill(pid, SIGTERM)` raises
`OSError`; `aliveAfterTerm pid` is the probe result after the one-second grace
sleep; `killRaises pid` says `os.kill(pid, SIGKILL)` raises `OSError`.  The
three filesystem flags model `OSError` from reading, writing and unlinking the
lock file. -/
structure World where
  alive : Int → Bool
  termRaises : Int → Bool
  aliveAfterTerm : Int → Bool
  killRaises : Int → Bool
  readRaises : Bool
  writeRaises : Bool
  removeRaises : Bool

/-- Observable process-signalling events of a lock operation.  `probe pid` is
`os.kill(pid, 0)`; `killCall pid` marks an invocation of `_kill_process`;
`sigterm`/`sigkill` are delivered signals; `sleep n` is `time.sleep(n)`. -/
inductive OsEvent where
  | probe (pid : Int)
  | killCall (pid : Int)
  | sigterm (pid : Int)
  | sigkill (pid : Int)
  | sleep (secs : Nat)
deriving DecidableEq, Repr

/-- Events that attempt to terminate a process: an invocation of the
termination routine or a delivered termination signal. -/
def OsEvent.isTerminationAttempt : OsEvent → Bool
  | .killCall _ => true
  | .sigterm _ => true
  | .sigkill _ => true
  | _ => false

/-- Events that mark an invocation of the `_kill_process` routine. -/
def OsEvent.isKillCall : OsEvent → Bool
  | .killCall _ => true
  | _ => false

/-- The `McpLockError` exception; `couldNotTerminate` carries the PID of the
holder that could not be terminated, `writeFailed` models a failure of
`_write_lock`. -/
inductive McpLockError where
  | couldNotTerminate (pid : Int)
  | writeFailed
deriving DecidableEq, Repr

/-- Human-readable message of an `McpLockError`, as formatted in `lock.py`. -/
def McpLockError.message : McpLockError → String
  | .couldNotTerminate pid =>
      "Could not terminate existing MCP server (PID " ++ toString pid ++ ")"
  | .writeFailed => "Failed to write lock file"

/-- `_read_lock`: `none` when the file is missing, when reading raises
`OSError`, or when the content fails to parse as an integer. -/
def readLock (w : World) (fs : Option String) : Option Int :=
  match fs with
  | none => none
  | some content => if w.readRaises then none else pyInt content

/-- `_process_exists`: the `os.kill(pid, 0)` probe, answered by the oracle. -/
def processExists (w : World) (pid : Int) : Bool :=
  w.alive pid

/-- `_kill_process`: SIGTERM, one-second grace sleep, re-probe, then SIGKILL
if still alive.  Returns whether the routine returned `True`, together with
the events it performed; an `OSError` from either signal makes it return
`False`.  The event list always starts with the `killCall` marker for the
invocation itself. -/
def killProcess (w : World) (pid : Int) : Bool × List OsEvent :=
  if w.termRaises pid then
    (false, [OsEvent.killCall pid])
  else if w.aliveAfterTerm pid then
    if w.killRaises pid then
      (false, [OsEvent.killCall pid, OsEvent.sigterm pid, OsEvent.sleep 1,
               OsEvent.probe pid])
    else
      (true, [OsEvent.killCall pid, OsEvent.sigterm pid, OsEvent.sleep 1,
              OsEvent.probe pid, OsEvent.sigkill pid])
  else
    (true, [OsEvent.killCall pid, OsEvent.sigterm pid, OsEvent.sleep 1,
            OsEvent.probe pid])

/-- Liveness of `pid` after `_kill_process` ran on it: unchanged when SIGTERM
raised before delivery; dead when the process exited during the grace period;
dead when a SIGKILL was delivered (a delivered SIGKILL cannot be caught or
ignored); still alive when SIGKILL itself raised. -/
def aliveAfterKillProcess (w : World) (pid : Int) : Bool :=
  if w.termRaises pid then w.alive pid
  else if w.aliveAfterTerm pid then w.killRaises pid
  else false

/-- `_remove_lock`: best-effort unlink; on `OSError` the file survives. -/
def removeLock (w : World) (fs : Option String) : Option String :=
  match fs with
  | none => none
  | some content => if w.removeRaises then some content else none

/-- Result of `acquire`: the outcome (`ok` or a raised `McpLockError`), the
final lock-file state, and the trace of process-signalling events. -/
structure AcquireResult where
  outcome : Except McpLockError Unit
  fs : Option String
  events : List OsEvent
deriving Repr

/-- Final step of `acquire`: `_write_lock`, which creates the directory and
writes `str(self.pid)`; on `OSError` it raises `McpLockError` and leaves the
file state unchanged. -/
def finishWrite (w : World) (selfPid : Int) (fs : Option String)
    (evs : List OsEvent) : AcquireResult :=
  if w.writeRaises then ⟨Except.error McpLockError.writeFailed, fs, evs⟩
  else ⟨Except.ok (), some (toString selfPid), evs⟩

/-- `acquire`: read the existing lock; a record that is missing, unreadable or
`0` (Python truthiness of `if existing_pid:`) is skipped; a live recorded
holder is taken over via `_kill_process`, raising `couldNotTerminate` on
failure; a stale record is removed; finally the caller's PID is written. -/
def acquire (w : World) (selfPid : Int) (fs : Option String) : AcquireResult :=
  match readLock w fs with
  | none => finishWrite w selfPid fs []
  | some epid =>
    if epid = 0 then
      finishWrite w selfPid fs []
    else if w.alive epid then
      let k := killProcess w epid
      if k.1 then
        finishWrite w selfPid (removeLock w fs) (OsEvent.probe epid :: k.2)
      else
        ⟨Except.error (McpLockError.couldNotTerminate epid), fs,
         OsEvent.probe epid :: k.2⟩
    else
      finishWrite w selfPid (removeLock w fs) [OsEvent.probe epid]

/-- `release`: remove the lock file only when its recorded PID equals the
handle's own PID; otherwise leave it untouched.  Every fault inside is caught
in the source, so `release` is a total function on states: it cannot raise. -/
def release (w : World) (selfPid : Int) (fs : Option String) : Option String :=
  if readLock w fs = some selfPid then removeLock w fs else fs

/-- Decimal digit characters of `n`, most significant first; agrees with the
characters produced by `Nat.toDigits 10`, hence with `toString`. -/
def natDigits (n : Nat) : List Char :=
  if _h : n < 10 then [Nat.digitChar n]
  else natDigits (n / 10) ++ [Nat.digitChar (n % 10)]
decreasing_by exact Nat.div_lt_self (by omega) (by omega)

/-- World in which every PID is dead and every OS operation succeeds. -/
def wAllDead : World where
  alive := fun _ => false
  termRaises := fun _ => false
  aliveAfterTerm := fun _ => false
  killRaises := fun _ => false
  readRaises := false
  writeRaises := false
  removeRaises := false

/-- World in which only PID 7 is alive and it exits during the grace period. -/
def wLiveSeven : World :=
  { wAllDead with alive := fun p => p == 7 }

/-- World in which PID 7 is alive and SIGTERM to it raises `OSError`. -/
def wTermFailSeven : World :=
  { wAllDead with alive := fun p => p == 7, termRaises := fun p => p == 7 }

/-- World in which only PID 42 is alive (used as the caller's own PID). -/
def wLiveSelf : World :=
  { wAllDead with alive := fun p => p == 42 }

theorem digitChar_toNat : ∀ d, d < 10 → (Nat.digitChar d).toNat = 48 + d := by
  decide

theorem digitChar_isDigit : ∀ d, d < 10 → (Nat.digitChar d).isDigit = true := by
  decide

theorem digitChar_not_ws : ∀ d, d < 10 → (Nat.digitChar d).isWhitespace = false := by
  decide

theorem natDigits_ne_nil (n : Nat) : natDigits n ≠ [] := by
  rw [natDigits]
  split <;> simp

theorem natDigits_all_digit (n : Nat) : ∀ c ∈ natDigits n, c.isDigit = true := by
  induction n using Nat.strong_induction_on with
  | _ n ih =>
    rw [natDigits]
    split
    · intro c hc
      rw [List.mem_singleton] at hc
      subst hc
      exact digitChar_isDigit n (by assumption)
    · intro c hc
      rw [List.mem_append] at hc
      rcases hc with hc | hc
      · exact ih (n / 10) (Nat.div_lt_self (by omega) (by omega)) c hc
      · rw [List.mem_singleton] at hc
        subst hc
        exact digitChar_isDigit (n % 10) (Nat.mod_lt n (by omega))

theorem natDigits_all_not_ws (n : Nat) :
    ∀ c ∈ natDigits n, c.isWhitespace = false := by
  induction n using Nat.strong_induction_on with
  | _ n ih =>
    rw [natDigits]
    split
    · intro c hc
      rw [List.mem_singleton] at hc
      subst hc
      exact digitChar_not_ws n (by assumption)
    · intro c hc
      rw [List.mem_append] at hc
      rcases hc with hc | hc
      · exact ih (n / 10) (Nat.div_lt_self (by omega) (by omega)) c hc
      · rw [List.mem_singleton] at hc
        subst hc
        exact digitChar_not_ws (n % 10) (Nat.mod_lt n (by omega))

theorem digitsVal_append (cs : List Char) (c : Char) :
    digitsVal (cs ++ [c]) = 10 * digitsVal cs + (c.toNat - 48) := by
  simp [digitsVal, List.foldl_append]

theorem digitsVal_natDigits (n : Nat) : digitsVal (natDigits n) = n := by
  induction n using Nat.strong_induction_on with
  | _ n ih =>
    rw [natDigits]
    split
    · rename_i h10
      simp [digitsVal, digitChar_toNat n h10]
    · rename_i h10
      rw [digitsVal_append, ih (n / 10) (Nat.div_lt_self (by omega) (by omega)),
        digitChar_toNat (n % 10) (Nat.mod_lt n (by omega))]
      omega

theorem parseDigits_natDigits (n : Nat) : parseDigits (natDigits n) = some n := by
  unfold parseDigits
  rw [if_neg (natDigits_ne_nil n), if_pos (List.all_eq_true.mpr (natDigits_all_digit n)),
    digitsVal_natDigits]

theorem dropWhile_all_false (p : Char → Bool) (cs : List Char)
    (h : ∀ c ∈ cs, p c = false) : cs.dropWhile p = cs := by
  cases cs with
  | nil => rfl
  | cons c rest => rw [List.dropWhile_cons, h c (List.mem_cons_self c rest)]; simp

theorem stripChars_id (cs : List Char)
    (h : ∀ c ∈ cs, c.isWhitespace = false) : stripChars cs = cs := by
  unfold stripChars
  rw [dropWhile_all_false _ _ h,
    dropWhile_all_false _ _ (fun c hc => h c (List.mem_reverse.mp hc)),
    List.reverse_reverse]

theorem toDigitsCore_eq (fuel : Nat) : ∀ (n : Nat) (acc : List Char), n < fuel →
    Nat.toDigitsCore 10 fuel n acc = natDigits n ++ acc := by
  induction fuel with
  | zero => intro n acc h; exact absurd h (Nat.not_lt_zero n)
  | succ fuel ih =>
    intro n acc h
    unfold Nat.toDigitsCore
    by_cases h10 : n < 10
    · have hz : n / 10 = 0 := Nat.div_eq_of_lt h10
      rw [natDigits]
      simp [hz, h10, Nat.mod_eq_of_lt h10]
    · have hz : ¬ n / 10 = 0 := by
        intro hz
        rw [Nat.div_eq_zero_iff (by omega)] at hz
        omega
      have hlt : n / 10 < fuel := by
        have := Nat.div_lt_self (show 0 < n by omega) (show 1 < 10 by omega)
        omega
      rw [natDigits]
      simp only [h10, dif_neg, if_neg hz, ih (n / 10) _ hlt, List.append_assoc,
        List.singleton_append]
      simp

theorem natRepr_eq (n : Nat) : Nat.repr n = String.mk (natDigits n) := by
  unfold Nat.repr Nat.toDigits
  rw [toDigitsCore_eq (n + 1) n [] (Nat.lt_succ_self n)]
  simp [List.asString]

theorem pyIntChars_digits (cs : List Char) (hne : cs ≠ [])
    (hd : ∀ c ∈ cs, c.isDigit = true) :
    pyIntChars cs = (parseDigits cs).map (fun n => (n : Int)) := by
  cases cs with
  | nil => exact absurd rfl hne
  | cons c rest =>
    have hc := hd c (List.mem_cons_self c rest)
    have h1 : ¬ c = '-' := by
      intro he; rw [he] at hc; exact absurd hc (by decide)
    have h2 : ¬ c = '+' := by
      intro he; rw [he] at hc; exact absurd hc (by decide)
    simp only [pyIntChars]
    rw [if_neg h1, if_neg h2]

theorem pyInt_natRepr (n : Nat) :
    pyInt (String.mk (natDigits n)) = some (n : Int) := by
  unfold pyInt
  have ht : (String.mk (natDigits n)).toList = natDigits n := rfl
  rw [ht, stripChars_id _ (natDigits_all_not_ws n),
    pyIntChars_digits _ (natDigits_ne_nil n) (natDigits_all_digit n),
    parseDigits_natDigits]
  rfl

theorem pyInt_toString_int (i : Int) : pyInt (toString i) = some i := by
  cases i with
  | ofNat m =>
    have h1 : toString (Int.ofNat m) = Nat.repr m := rfl
    rw [h1, natRepr_eq]
    exact pyInt_natRepr m
  | negSucc m =>
    have h1 : toString (Int.negSucc m) = "-" ++ Nat.repr (m + 1) := rfl
    have h2 : ("-" ++ String.mk (natDigits (m + 1))) =
        String.mk ('-' :: natDigits (m + 1)) := rfl
    rw [h1, natRepr_eq, h2]
    unfold pyInt
    have h3 : (String.mk ('-' :: natDigits (m + 1))).toList =
        '-' :: natDigits (m + 1) := rfl
    rw [h3, stripChars_id]
    · have h4 : pyIntChars ('-' :: natDigits (m + 1)) =
          (parseDigits (natDigits (m + 1))).map (fun n => -(n : Int)) := by
        simp [pyIntChars]
      rw [h4, parseDigits_natDigits]
      simp [Int.negSucc_eq]
    · intro c hc
      rw [List.mem_cons] at hc
      rcases hc with hc | hc
      · subst hc; decide
      · exact natDigits_all_not_ws (m + 1) c hc

theorem acquire_eq_of_none (w : World) (selfPid : Int) (fs : Option String)
    (hrd : readLock w fs = none) :
    acquire w selfPid fs = finishWrite w selfPid fs [] := by
  unfold acquire
  rw [hrd]

theorem acquire_eq_of_zero (w : World) (selfPid : Int) (fs : Option String)
    (hrd : readLock w fs = some 0) :
    acquire w selfPid fs = finishWrite w selfPid fs [] := by
  unfold acquire
  rw [hrd]
  simp

theorem acquire_eq_of_stale (w : World) (selfPid epid : Int) (fs : Option String)
    (hrd : readLock w fs = some epid) (h0 : epid ≠ 0)
    (hal : w.alive epid = false) :
    acquire w selfPid fs =
      finishWrite w selfPid (removeLock w fs) [OsEvent.probe epid] := by
  unfold acquire
  rw [hrd]
  simp [h0, hal]

theorem acquire_eq_of_live_success (w : World) (selfPid epid : Int)
    (fs : Option String) (hrd : readLock w fs = some epid) (h0 : epid ≠ 0)
    (hal : w.alive epid = true) (hk : (killProcess w epid).1 = true) :
    acquire w selfPid fs =
      finishWrite w selfPid (removeLock w fs)
        (OsEvent.probe epid :: (killProcess w epid).2) := by
  unfold acquire
  rw [hrd]
  simp [h0, hal, hk]

theorem acquire_eq_of_live_failure (w : World) (selfPid epid : Int)
    (fs : Option String) (hrd : readLock w fs = some epid) (h0 : epid ≠ 0)
    (hal : w.alive epid = true) (hk : (killProcess w epid).1 = false) :
    acquire w selfPid fs =
      ⟨Except.error (McpLockError.couldNotTerminate epid), fs,
       OsEvent.probe epid :: (killProcess w epid).2⟩ := by
  unfold acquire
  rw [hrd]
  simp [h0, hal, hk]

theorem killProcess_false_iff (w : World) (pid : Int) :
    (killProcess w pid).1 = false ↔
      (w.termRaises pid = true ∨
        (w.aliveAfterTerm pid = true ∧ w.killRaises pid = true)) := by
  unfold killProcess
  cases h1 : w.termRaises pid <;> cases h2 : w.aliveAfterTerm pid <;>
    cases h3 : w.killRaises pid <;> simp [h1, h2, h3]

theorem killProcess_true_dead (w : World) (pid : Int)
    (hk : (killProcess w pid).1 = true) : aliveAfterKillProcess w pid = false := by
  unfold killProcess at hk
  unfold aliveAfterKillProcess
  cases h1 : w.termRaises pid <;> cases h2 : w.aliveAfterTerm pid <;>
    cases h3 : w.killRaises pid <;> simp_all

theorem killProcess_events_of_term_ok (w : World) (pid : Int)
    (ht : w.termRaises pid = false) :
    ((killProcess w pid).2).take 4 =
      [OsEvent.killCall pid, OsEvent.sigterm pid, OsEvent.sleep 1,
       OsEvent.probe pid] := by
  unfold killProcess
  cases h2 : w.aliveAfterTerm pid <;> cases h3 : w.killRaises pid <;>
    simp [ht, h2, h3]

theorem finishWrite_of_no_raise (w : World) (selfPid : Int) (fs : Option String)
    (evs : List OsEvent) (hw : w.writeRaises = false) :
    finishWrite w selfPid fs evs =
      ⟨Except.ok (), some (toString selfPid), evs⟩ := by
  unfold finishWrite
  rw [hw]
  simp

theorem finishWrite_ok (w : World) (selfPid : Int) (fs : Option String)
    (evs : List OsEvent)
    (h : (finishWrite w selfPid fs evs).outcome = Except.ok ()) :
    finishWrite w selfPid fs evs =
      ⟨Except.ok (), some (toString selfPid), evs⟩ := by
  unfold finishWrite at h ⊢
  cases hw : w.writeRaises <;> simp_all

theorem finishWrite_events (w : World) (selfPid : Int) (fs : Option String)
    (evs : List OsEvent) : (finishWrite w selfPid fs evs).events = evs := by
  unfold finishWrite
  cases hw : w.writeRaises <;> simp

theorem acquire_ok_fs (w : World) (selfPid : Int) (fs : Option String)
    (hok : (acquire w selfPid fs).outcome = Except.ok ()) :
    (acquire w selfPid fs).fs = some (toString selfPid) := by
  rcases hrd : readLock w fs with _ | epid
  · rw [acquire_eq_of_none w selfPid fs hrd] at hok ⊢
    rw [finishWrite_ok w selfPid fs [] hok]
  · by_cases h0 : epid = 0
    · subst h0
      rw [acquire_eq_of_zero w selfPid fs hrd] at hok ⊢
      rw [finishWrite_ok w selfPid fs [] hok]
    · cases hal : w.alive epid with
      | false =>
        rw [acquire_eq_of_stale w selfPid epid fs hrd h0 hal] at hok ⊢
        rw [finishWrite_ok w selfPid _ _ hok]
      | true =>
        cases hk : (killProcess w epid).1 with
        | false =>
          rw [acquire_eq_of_live_failure w selfPid epid fs hrd h0 hal hk] at hok
          simp at hok
        | true =>
          rw [acquire_eq_of_live_success w selfPid epid fs hrd h0 hal hk] at hok ⊢
          rw [finishWrite_ok w selfPid _ _ hok]

/-- Claim C1: whenever `acquire` returns successfully, the lock file ends up
holding the caller's own PID (any pre-existing record is overwritten), and a
recorded prior owner that was a live process is no longer alive by the time
`acquire` returns.  A recorded value of `0` is excluded from the liveness
clause because POSIX PID 0 addresses the caller's own process group and names
no single process. -/
theorem claim_acquire_success_prior_owner_dead (w : World) (selfPid epid : Int)
    (fs : Option String)
    (hok : (acquire w selfPid fs).outcome = Except.ok ())
    (hrd : readLock w fs = some epid) (h0 : epid ≠ 0)
    (hal : w.alive epid = true) :
    (acquire w selfPid fs).fs = some (toString selfPid) ∧
    aliveAfterKillProcess w epid = false := by
  refine ⟨acquire_ok_fs w selfPid fs hok, ?_⟩
  cases hk : (killProcess w epid).1 with
  | false =>
    rw [acquire_eq_of_live_failure w selfPid epid fs hrd h0 hal hk] at hok
    simp at hok
  | true => exact killProcess_true_dead w epid hk

theorem claim_acquire_success_prior_owner_dead_witness :
    (acquire wLiveSeven 42 (some "7")).outcome = Except.ok () ∧
    readLock wLiveSeven (some "7") = some 7 ∧
    (7 : Int) ≠ 0 ∧
    wLiveSeven.alive 7 = true ∧
    ((acquire wLiveSeven 42 (some "7")).fs = some (toString (42 : Int)) ∧
      aliveAfterKillProcess wLiveSeven 7 = false) :=
  ⟨by rfl, by rfl, by decide, by rfl,
    claim_acquire_success_prior_owner_dead wLiveSeven 42 7 (some "7")
      (by rfl) (by rfl) (by decide) (by rfl)⟩

/-- Claim C2: with a lock file recording a live PID whose termination fails
(a termination signal raises an OS-level error), `acquire` raises the
lock-specific error naming that PID, and the lock file is left with its
original content. -/
theorem claim_takeover_failure_raises (w : World) (selfPid epid : Int)
    (fs : Option String)
    (hrd : readLock w fs = some epid) (h0 : epid ≠ 0)
    (hal : w.alive epid = true)
    (hfail : w.termRaises epid = true ∨
      (w.aliveAfterTerm epid = true ∧ w.killRaises epid = true)) :
    (acquire w selfPid fs).outcome =
      Except.error (McpLockError.couldNotTerminate epid) ∧
    (acquire w selfPid fs).fs = fs ∧
    (McpLockError.couldNotTerminate epid).message =
      "Could not terminate existing MCP server (PID " ++ toString epid ++ ")" := by
  have hk : (killProcess w epid).1 = false := (killProcess_false_iff w epid).mpr hfail
  rw [acquire_eq_of_live_failure w selfPid epid fs hrd h0 hal hk]
  exact ⟨rfl, rfl, rfl⟩

theorem claim_takeover_failure_raises_witness :
    readLock wTermFailSeven (some "7") = some 7 ∧
    (7 : Int) ≠ 0 ∧
    wTermFailSeven.alive 7 = true ∧
    (wTermFailSeven.termRaises 7 = true ∨
      (wTermFailSeven.aliveAfterTerm 7 = true ∧
        wTermFailSeven.killRaises 7 = true)) ∧
    ((acquire wTermFailSeven 42 (some "7")).outcome =
        Except.error (McpLockError.couldNotTerminate 7) ∧
      (acquire wTermFailSeven 42 (some "7")).fs = some "7" ∧
      (McpLockError.couldNotTerminate (7 : Int)).message =
        "Could not terminate existing MCP server (PID " ++ toString (7 : Int) ++ ")") :=
  ⟨by rfl, by decide, by rfl, Or.inl (by rfl),
    claim_takeover_failure_raises wTermFailSeven 42 7 (some "7")
      (by rfl) (by decide) (by rfl) (Or.inl (by rfl))⟩

/-- Claim C3: with a lock file recording a live PID, when termination
succeeds `acquire` invokes the termination routine exactly once — once for
that PID and once overall — and finishes with the lock file holding the
caller's own PID. -/
theorem claim_live_takeover_kills_once (w : World) (selfPid epid : Int)
    (fs : Option String)
    (hrd : readLock w fs = some epid) (h0 : epid ≠ 0)
    (hal : w.alive epid = true)
    (hk : (killProcess w epid).1 = true)
    (hw : w.writeRaises = false) :
    (acquire w selfPid fs).outcome = Except.ok () ∧
    (acquire w selfPid fs).fs = some (toString selfPid) ∧
    (acquire w selfPid fs).events.count (OsEvent.killCall epid) = 1 ∧
    (acquire w selfPid fs).events.countP OsEvent.isKillCall = 1 := by
  rw [acquire_eq_of_live_success w selfPid epid fs hrd h0 hal hk,
    finishWrite_of_no_raise w selfPid _ _ hw]
  refine ⟨rfl, rfl, ?_, ?_⟩
  · unfold killProcess
    cases h1 : w.termRaises epid <;> cases h2 : w.aliveAfterTerm epid <;>
      cases h3 : w.killRaises epid <;>
      simp [h1, h2, h3, List.count_cons]
  · unfold killProcess
    cases h1 : w.termRaises epid <;> cases h2 : w.aliveAfterTerm epid <;>
      cases h3 : w.killRaises epid <;>
      simp [h1, h2, h3, List.countP_cons, OsEvent.isKillCall]

theorem claim_live_takeover_kills_once_witness :
    readLock wLiveSeven (some "7") = some 7 ∧
    (7 : Int) ≠ 0 ∧
    wLiveSeven.alive 7 = true ∧
    (killProcess wLiveSeven 7).1 = true ∧
    wLiveSeven.writeRaises = false ∧
    ((acquire wLiveSeven 42 (some "7")).outcome = Except.ok () ∧
      (acquire wLiveSeven 42 (some "7")).fs = some (toString (42 : Int)) ∧
      (acquire wLiveSeven 42 (some "7")).events.count (OsEvent.killCall 7) = 1 ∧
      (acquire wLiveSeven 42 (some "7")).events.countP OsEvent.isKillCall = 1) :=
  ⟨by rfl, by decide, by rfl, by rfl, by rfl,
    claim_live_takeover_kills_once wLiveSeven 42 7 (some "7")
      (by rfl) (by decide) (by rfl) (by rfl) (by rfl)⟩

/-- Claim C4: with a lock file recording a PID that is not alive, `acquire`
succeeds, performs no termination attempt (no `_kill_process` invocation and
no termination signal to any process), and finishes with the lock file
holding the caller's own PID. -/
theorem claim_stale_lock_no_termination (w : World) (selfPid epid : Int)
    (fs : Option String)
    (hrd : readLock w fs = some epid)
    (hal : w.alive epid = false)
    (hw : w.writeRaises = false) :
    (acquire w selfPid fs).outcome = Except.ok () ∧
    (acquire w selfPid fs).fs = some (toString selfPid) ∧
    (acquire w selfPid fs).events.all
      (fun e => ! OsEvent.isTerminationAttempt e) = true := by
  by_cases h0 : epid = 0
  · subst h0
    rw [acquire_eq_of_zero w selfPid fs hrd,
      finishWrite_of_no_raise w selfPid _ _ hw]
    exact ⟨rfl, rfl, rfl⟩
  · rw [acquire_eq_of_stale w selfPid epid fs hrd h0 hal,
      finishWrite_of_no_raise w selfPid _ _ hw]
    refine ⟨rfl, rfl, ?_⟩
    simp [OsEvent.isTerminationAttempt]

theorem claim_stale_lock_no_termination_witness :
    readLock wAllDead (some "7") = some 7 ∧
    wAllDead.alive 7 = false ∧
    wAllDead.writeRaises = false ∧
    ((acquire wAllDead 42 (some "7")).outcome = Except.ok () ∧
      (acquire wAllDead 42 (some "7")).fs = some (toString (42 : Int)) ∧
      (acquire wAllDead 42 (some "7")).events.all
        (fun e => ! OsEvent.isTerminationAttempt e) = true) :=
  ⟨by rfl, by rfl, by rfl,
    claim_stale_lock_no_termination wAllDead 42 7 (some "7")
      (by rfl) (by rfl) (by rfl)⟩

/-- Claim C5: on a directory with no lock file, `acquire` succeeds and the
lock file afterwards contains exactly the decimal text of the caller's own
PID. -/
theorem claim_fresh_acquire_writes_own_pid (w : World) (selfPid : Int)
    (hw : w.writeRaises = false) :
    (acquire w selfPid none).outcome = Except.ok () ∧
    (acquire w selfPid none).fs = some (toString selfPid) := by
  rw [acquire_eq_of_none w selfPid none rfl,
    finishWrite_of_no_raise w selfPid _ _ hw]
  exact ⟨rfl, rfl⟩

theorem claim_fresh_acquire_writes_own_pid_witness :
    wAllDead.writeRaises = false ∧
    ((acquire wAllDead 42 none).outcome = Except.ok () ∧
      (acquire wAllDead 42 none).fs = some (toString (42 : Int))) :=
  ⟨by rfl, claim_fresh_acquire_writes_own_pid wAllDead 42 (by rfl)⟩

/-- Claim C6: a lock file whose content does not parse as an integer is
treated identically to a missing lock file: `acquire` raises no error for the
corrupt content, performs no probe and no termination (its event trace is
empty), and proceeds directly to writing the caller's own PID. -/
theorem claim_corrupt_lock_treated_as_missing (w : World) (selfPid : Int)
    (c : String) (hc : pyInt c = none) (hw : w.writeRaises = false) :
    acquire w selfPid (some c) = acquire w selfPid none ∧
    (acquire w selfPid (some c)).events = [] ∧
    (acquire w selfPid (some c)).outcome = Except.ok () ∧
    (acquire w selfPid (some c)).fs = some (toString selfPid) := by
  have hrd : readLock w (some c) = none := by
    cases hr : w.readRaises <;> simp [readLock, hr, hc]
  rw [acquire_eq_of_none w selfPid (some c) hrd,
    acquire_eq_of_none w selfPid none rfl,
    finishWrite_of_no_raise w selfPid (some c) [] hw,
    finishWrite_of_no_raise w selfPid none [] hw]
  exact ⟨rfl, rfl, rfl, rfl⟩

theorem claim_corrupt_lock_treated_as_missing_witness :
    pyInt "not-a-pid" = none ∧
    wAllDead.writeRaises = false ∧
    (acquire wAllDead 42 (some "not-a-pid") = acquire wAllDead 42 none ∧
      (acquire wAllDead 42 (some "not-a-pid")).events = [] ∧
      (acquire wAllDead 42 (some "not-a-pid")).outcome = Except.ok () ∧
      (acquire wAllDead 42 (some "not-a-pid")).fs = some (toString (42 : Int))) :=
  ⟨by rfl, by rfl,
    claim_corrupt_lock_treated_as_missing wAllDead 42 "not-a-pid"
      (by rfl) (by rfl)⟩

/-- Claim C7: when the recorded PID does not equal the handle's own PID
(including a missing or unparseable lock file), `release` leaves the lock
file exactly as it was; `release` is a total function in this embedding, so
it cannot raise. -/
theorem claim_release_nonowner_noop (w : World) (selfPid : Int)
    (fs : Option String) (h : readLock w fs ≠ some selfPid) :
    release w selfPid fs = fs := by
  unfold release
  rw [if_neg h]

theorem claim_release_nonowner_noop_witness :
    readLock wAllDead (some "7") ≠ some 42 ∧
    release wAllDead 42 (some "7") = some "7" :=
  ⟨by decide, claim_release_nonowner_noop wAllDead 42 (some "7") (by decide)⟩

/-- Claim C8: after a successful `acquire`, calling `release` on the same
handle with the lock file as `acquire` left it (and with reading and
unlinking not faulting) removes the lock file. -/
theorem claim_acquire_release_removes_file (w : World) (selfPid : Int)
    (fs : Option String)
    (hok : (acquire w selfPid fs).outcome = Except.ok ())
    (hr : w.readRaises = false) (hrm : w.removeRaises = false) :
    release w selfPid ((acquire w selfPid fs).fs) = none := by
  rw [acquire_ok_fs w selfPid fs hok]
  have hrd : readLock w (some (toString selfPid)) = some selfPid := by
    simp [readLock, hr, pyInt_toString_int]
  simp [release, hrd, removeLock, hrm]

theorem claim_acquire_release_removes_file_witness :
    (acquire wAllDead 42 none).outcome = Except.ok () ∧
    wAllDead.readRaises = false ∧
    wAllDead.removeRaises = false ∧
    release wAllDead 42 ((acquire wAllDead 42 none).fs) = none :=
  ⟨by rfl, by rfl, by rfl,
    claim_acquire_release_removes_file wAllDead 42 none (by rfl) (by rfl) (by rfl)⟩

/-- Claim C9: a lock file whose content parses to the integer `0` is treated
exactly like a missing record — the truthiness test `if existing_pid:`
discards it — so `acquire` performs no probe and no termination for PID 0 and
proceeds directly to writing the caller's own PID. -/
theorem claim_zero_pid_treated_as_missing (w : World) (selfPid : Int)
    (c : String) (hc : pyInt c = some 0) (hw : w.writeRaises = false) :
    acquire w selfPid (some c) = acquire w selfPid none ∧
    (acquire w selfPid (some c)).events = [] ∧
    (acquire w selfPid (some c)).outcome = Except.ok () ∧
    (acquire w selfPid (some c)).fs = some (toString selfPid) := by
  have heq : acquire w selfPid (some c) = finishWrite w selfPid (some c) [] := by
    cases hr : w.readRaises with
    | true =>
      exact acquire_eq_of_none w selfPid (some c) (by simp [readLock, hr])
    | false =>
      exact acquire_eq_of_zero w selfPid (some c) (by simp [readLock, hr, hc])
  rw [heq, acquire_eq_of_none w selfPid none rfl,
    finishWrite_of_no_raise w selfPid (some c) [] hw,
    finishWrite_of_no_raise w selfPid none [] hw]
  exact ⟨rfl, rfl, rfl, rfl⟩

theorem claim_zero_pid_treated_as_missing_witness :
    pyInt "0" = some 0 ∧
    wAllDead.writeRaises = false ∧
    (acquire wAllDead 42 (some "0") = acquire wAllDead 42 none ∧
      (acquire wAllDead 42 (some "0")).events = [] ∧
      (acquire wAllDead 42 (some "0")).outcome = Except.ok () ∧
      (acquire wAllDead 42 (some "0")).fs = some (toString (42 : Int))) :=
  ⟨by rfl, by rfl,
    claim_zero_pid_treated_as_missing wAllDead 42 "0" (by rfl) (by rfl)⟩

/-- Claim C10: when the lock file records the calling process's own (live)
PID and SIGTERM delivery to it does not raise, `acquire` treats the caller
as a foreign live holder: it probes the PID, invokes the termination routine,
delivers SIGTERM to the calling process itself, sleeps the one-second grace
period, and re-probes its own liveness. -/
theorem claim_self_pid_treated_as_foreign (w : World) (selfPid : Int)
    (fs : Option String)
    (hrd : readLock w fs = some selfPid) (h0 : selfPid ≠ 0)
    (hal : w.alive selfPid = true) (ht : w.termRaises selfPid = false) :
    (acquire w selfPid fs).events.take 5 =
      [OsEvent.probe selfPid, OsEvent.killCall selfPid,
       OsEvent.sigterm selfPid, OsEvent.sleep 1, OsEvent.probe selfPid] := by
  have hkev := killProcess_events_of_term_ok w selfPid ht
  cases hk : (killProcess w selfPid).1 with
  | false =>
    rw [acquire_eq_of_live_failure w selfPid selfPid fs hrd h0 hal hk]
    simpa using hkev
  | true =>
    rw [acquire_eq_of_live_success w selfPid selfPid fs hrd h0 hal hk,
      finishWrite_events]
    simpa using hkev

theorem claim_self_pid_treated_as_foreign_witness :
    readLock wLiveSelf (some "42") = some 42 ∧
    (42 : Int) ≠ 0 ∧
    wLiveSelf.alive 42 = true ∧
    wLiveSelf.termRaises 42 = false ∧
    (acquire wLiveSelf 42 (some "42")).events.take 5 =
      [OsEvent.probe 42, OsEvent.killCall 42, OsEvent.sigterm 42,
       OsEvent.sleep 1, OsEvent.probe 42] :=
  ⟨by rfl, by decide, by rfl, by rfl,
    claim_self_pid_treated_as_foreign wLiveSelf 42 (some "42")
      (by rfl) (by decide) (by rfl) (by rfl)⟩

end BasicMemory
